import Mathlib

/-!
Shallow embedding of `zipline/lib/ringbuffer.py` (class `RingBuffer`) and
`zipline/utils/exploding_object.py` (class `ExplodingObject`).

Modelling choices, all taken from the source:
* The buffer has dtype `'i8'` (signed 64-bit integers) in every documented
  example; values are `Int` together with an explicit representability
  predicate `int64OK` and the wrap-around normalisation `int64Wrap` that
  numpy's fixed-width sums and products perform.
* `self._buffer` (an N-dimensional numpy array rotating along axis 0) is a
  list of rows: one row per axis-0 slot, each row the row-major flattening
  of that slot's payload.  A scalar pushed into a one-dimensional buffer is
  the length-1 payload `[n]`.
* Python methods mutate `self` and raise exceptions; each mutating method is
  a function returning the pair (raised-or-returned outcome, state after the
  call).  numpy's `__setitem__` validates the index, the shape and the cast
  before writing, so a raising call leaves the state exactly as it was.
* `mean` is computed by numpy in float64; at the magnitudes of every claim
  float64 arithmetic is exact, so it is modelled over `ℚ`.  `std` returns
  the square root of the population variance; the result is represented
  here by that variance (squaring is injective on nonnegative reals, so
  equalities between `std` results coincide with equalities between these
  representations).
-/

deriving instance DecidableEq for Except

/-- Whether `v` is representable in numpy dtype `'i8'` (int64). -/
def int64OK (v : Int) : Bool :=
  decide (-(2 ^ 63) ≤ v ∧ v < 2 ^ 63)

/-- numpy's int64 wrap-around: the unique representative of `v` modulo
`2 ^ 64` lying in `[-2 ^ 63, 2 ^ 63)`.  numpy's `sum`/`prod` over an int64
array compute modulo `2 ^ 64`. -/
def int64Wrap (v : Int) : Int :=
  (v + 2 ^ 63) % 2 ^ 64 - 2 ^ 63

/-- The Python exceptions the RingBuffer code can raise, one constructor per
distinct raising site.  `invalidAxis` is the
`ValueError('cannot perform reduction along non-primary axis')` raised by
`_numpy_reduction`; the others are raised inside numpy. -/
inductive RBError
  /-- `ValueError: negative dimensions are not allowed` from `np.full`. -/
  | negativeDimensions
  /-- `IndexError`: `shape[0]` on a 0-d array, or an out-of-range row index. -/
  | indexError
  /-- `ValueError`: the assigned element does not fit the slot's shape. -/
  | shapeMismatch
  /-- `OverflowError`: the value is not representable in the dtype. -/
  | overflowError
  /-- `ValueError('cannot perform reduction along non-primary axis')`. -/
  | invalidAxis
  /-- `ValueError`: numpy `min`/`max` over a zero-size array. -/
  | zeroSizeReduction
deriving DecidableEq

/-- State of a `RingBuffer` object: `shape` is `self._buffer.shape`,
`buffer` is `self._buffer` as a list of axis-0 rows (each row the flattened
payload of one slot), `capacity` is `self._capacity` and `ix` is `self._ix`. -/
structure RingBuffer where
  shape : List Nat
  buffer : List (List Int)
  capacity : Nat
  ix : Nat
deriving DecidableEq

/-- The flattened size of one axis-0 slot: the product of the non-leading
dimensions (`1` for a one-dimensional buffer). -/
def RingBuffer.slotSize (rb : RingBuffer) : Nat :=
  rb.shape.tail.prod

/-- Python `RingBuffer.__init__(shape, fill_value, dtype)` for dtype `'i8'`:
`self._buffer = np.full(shape, fill_value, dtype)` (numpy rejects negative
dimensions, then checks the fill value's representability),
`self._capacity = self._buffer.shape[0]` (an `IndexError` on a 0-d array),
`self._ix = 0`.  An integer `shape` argument is the one-element list. -/
def RingBuffer.init (shape : List Int) (fill_value : Int) :
    Except RBError RingBuffer :=
  if shape.any (fun d => d < 0) then Except.error RBError.negativeDimensions
  else if int64OK fill_value then
    match shape with
    | [] => Except.error RBError.indexError
    | d :: rest =>
      Except.ok
        { shape := (d :: rest).map Int.toNat
        , buffer :=
            List.replicate d.toNat
              (List.replicate (rest.map Int.toNat).prod fill_value)
        , capacity := d.toNat
        , ix := 0 }
  else Except.error RBError.overflowError

/-- Python `RingBuffer.__len__`: returns `self._capacity`. -/
def RingBuffer.length (rb : RingBuffer) : Nat :=
  rb.capacity

/-- Python `RingBuffer.push(element)`:
`ix = self._ix; self._buffer[ix] = element; self._ix = (ix + 1) % self._capacity`.
numpy's row assignment checks the index, then the element's shape, then the
cast, and only then writes; a raising call leaves the object untouched
(the cursor update comes after the write).  The element is given as the
flattened payload (a length-1 list for a one-dimensional buffer). -/
def RingBuffer.push (rb : RingBuffer) (element : List Int) :
    Except RBError Unit × RingBuffer :=
  let ix := rb.ix
  if rb.capacity ≤ ix then (Except.error RBError.indexError, rb)
  else if element.length ≠ rb.slotSize then (Except.error RBError.shapeMismatch, rb)
  else if element.all int64OK then
    (Except.ok (),
      { rb with
        buffer := rb.buffer.set ix element
        , ix := (ix + 1) % rb.capacity })
  else (Except.error RBError.overflowError, rb)

/-- Python `RingBuffer.fill(value)`: `self._buffer[:] = value` overwrites every
entry of the storage with `value` (cast-checked first), keeping the shape;
the cursor and capacity are not touched. -/
def RingBuffer.fill (rb : RingBuffer) (value : Int) :
    Except RBError Unit × RingBuffer :=
  if int64OK value then
    (Except.ok (),
      { rb with
        buffer := rb.buffer.map (fun row => List.replicate row.length value) })
  else (Except.error RBError.overflowError, rb)

/-- The `j`-th column of the storage along axis 0: one entry per slot.
Axis-0 reductions reduce each such column. -/
def RingBuffer.column (rb : RingBuffer) (j : Nat) : List Int :=
  rb.buffer.map (fun row => row.getD j 0)

/-- The eight reduction names iterated over in the class body of
`RingBuffer` (`for reduction in 'all', 'any', 'max', 'mean', 'min', 'prod',
'std', 'sum'`). -/
inductive ReduceOp
  | all
  | any
  | max
  | mean
  | min
  | prod
  | std
  | sum
deriving DecidableEq

/-- A numpy scalar: int64, float64 (modelled exactly over `ℚ`), or bool. -/
inductive NpScalar
  | i (v : Int)
  | q (v : ℚ)
  | b (v : Bool)
deriving DecidableEq

/-- The result of a numpy reduction: a scalar (`axis=None`, or `axis=0` on a
one-dimensional array) or an array of payload shape (`axis=0` otherwise),
given as its row-major flattening. -/
inductive NpResult
  | scalar (s : NpScalar)
  | array (xs : List NpScalar)
deriving DecidableEq

/-- The float64 mean numpy computes for an int64 array (exact over `ℚ` at
the magnitudes of every claim; numpy yields NaN on a zero-size array, a
case no claim reaches — division by zero returns the junk value `0`). -/
def listMeanQ (xs : List Int) : ℚ :=
  (xs.sum : ℚ) / (xs.length : ℚ)

/-- Population variance (`ddof=0`, numpy's default): the square of the value
`std` returns. -/
def popVariance (xs : List Int) : ℚ :=
  (xs.map (fun x => ((x : ℚ) - listMeanQ xs) ^ 2)).sum / (xs.length : ℚ)

/-- One numpy reduction over a flat list of int64 values: the meaning of
`getattr(self._buffer, name)(...)` collapsing one full axis set.  `sum` and
`prod` wrap modulo `2 ^ 64`; `min`/`max` raise on a zero-size array;
`all`/`any` treat nonzero as truthy; `std` is represented by the population
variance (its square). -/
def scalarReduce (op : ReduceOp) (xs : List Int) : Except RBError NpScalar :=
  match op with
  | ReduceOp.all => Except.ok (NpScalar.b (xs.all (fun x => x != 0)))
  | ReduceOp.any => Except.ok (NpScalar.b (xs.any (fun x => x != 0)))
  | ReduceOp.max =>
    match xs with
    | [] => Except.error RBError.zeroSizeReduction
    | x :: rest => Except.ok (NpScalar.i (rest.foldl Max.max x))
  | ReduceOp.mean => Except.ok (NpScalar.q (listMeanQ xs))
  | ReduceOp.min =>
    match xs with
    | [] => Except.error RBError.zeroSizeReduction
    | x :: rest => Except.ok (NpScalar.i (rest.foldl Min.min x))
  | ReduceOp.prod => Except.ok (NpScalar.i (int64Wrap xs.prod))
  | ReduceOp.std => Except.ok (NpScalar.q (popVariance xs))
  | ReduceOp.sum => Except.ok (NpScalar.i (int64Wrap xs.sum))

/-- Sequence a fallible function over a list, stopping at the first error
(the order in which numpy reduces the columns of axis 0). -/
def mapExcept {α β ε : Type} (f : α → Except ε β) : List α → Except ε (List β)
  | [] => Except.ok []
  | a :: l =>
    match f a with
    | Except.error e => Except.error e
    | Except.ok b =>
      match mapExcept f l with
      | Except.error e => Except.error e
      | Except.ok bs => Except.ok (b :: bs)

/-- The reduction method `_numpy_reduction(name)` installs for each `op`:
`if axis not in (None, 0): raise ValueError('cannot perform reduction along
non-primary axis')`, then forward to `getattr(self._buffer, name)(axis)`.
For `axis=None` numpy reduces the whole flattened storage to a scalar; for
`axis=0` it reduces each axis-0 column, producing a payload-shaped array —
a scalar when the buffer is one-dimensional.  The method reads the storage
and never assigns any attribute, so the state component is the input state. -/
def RingBuffer.reduce (rb : RingBuffer) (op : ReduceOp) (axis : Option Int) :
    Except RBError NpResult × RingBuffer :=
  if axis = none ∨ axis = some 0 then
    (match axis with
     | none => (scalarReduce op rb.buffer.flatten).map NpResult.scalar
     | some _ =>
       match rb.shape.tail with
       | [] => (scalarReduce op (rb.column 0)).map NpResult.scalar
       | _ :: _ =>
         (mapExcept (fun j => scalarReduce op (rb.column j))
           (List.range rb.slotSize)).map NpResult.array
     , rb)
  else (Except.error RBError.invalidAxis, rb)

/-- Run a sequence of pushes, stopping at the first raised exception and
returning the final state on success. -/
def pushSeq (rb : RingBuffer) : List (List Int) → Except RBError RingBuffer
  | [] => Except.ok rb
  | e :: es =>
    match rb.push e with
    | (Except.ok _, rb') => pushSeq rb' es
    | (Except.error err, _) => Except.error err

/-- The first `k` elements of the infinite cyclic repetition of `vs`:
the pushes "of the same values in the same order". -/
def cycleElems (vs : List (List Int)) (k : Nat) : List (List Int) :=
  (List.range k).map (fun j => vs.getD (j % vs.length) [])

/-- A mutating call on a RingBuffer: a `push` or a `fill`. -/
inductive RBOp
  | push (element : List Int)
  | fill (value : Int)

/-- The state after one mutating call (raising or not). -/
def applyOp (rb : RingBuffer) : RBOp → RingBuffer
  | RBOp.push e => (rb.push e).2
  | RBOp.fill v => (rb.fill v).2

/-- The state after a finite sequence of mutating calls. -/
def runOps (rb : RingBuffer) : List RBOp → RingBuffer
  | [] => rb
  | op :: rest => runOps (applyOp rb op) rest

/-- State of an `ExplodingObject`: `self._name`, set by `__init__`. -/
structure ExplodingObject where
  _name : String
deriving DecidableEq

/-- Python attribute access on an `ExplodingObject`.  Normal lookup finds
`_name` in the instance dictionary (set by `__init__`); `__getattr__` is
invoked only when normal lookup fails, and raises
`AttributeError('attempted to access attribute %r of ExplodingObject %r'
% (attr, self._name))`.  The `%r` quoting around the two names is omitted;
the message text is otherwise verbatim.  (Attributes inherited from
`object`, such as `__class__`, also bypass `__getattr__` and are not
modelled.) -/
def ExplodingObject.getattr (obj : ExplodingObject) (attr : String) :
    Except String String :=
  if attr = "_name" then Except.ok obj._name
  else
    Except.error
      ("attempted to access attribute " ++ attr ++ " of ExplodingObject "
        ++ obj._name)

/-! ### Helper lemmas -/

/-- Reading back the slot just written by `List.set`. -/
theorem getD_set_self {α : Type} (l : List α) (n : Nat) (a d : α)
    (h : n < l.length) : (l.set n a).getD n d = a := by
  simp [List.getD_eq_getElem?_getD, List.getElem?_set, h]

/-- Slots other than the one written by `List.set` are unchanged. -/
theorem getD_set_ne {α : Type} (l : List α) (n m : Nat) (a d : α)
    (h : n ≠ m) : (l.set n a).getD m d = l.getD m d := by
  simp [List.getD_eq_getElem?_getD, List.getElem?_set, h]

/-- Writing a slot's own current value back is a no-op. -/
theorem set_getD_self {α : Type} :
    ∀ (l : List α) (n : Nat) (d : α), n < l.length → l.set n (l.getD n d) = l
  | [], n, d, h => by simp at h
  | a :: l, 0, d, h => by simp
  | a :: l, n + 1, d, h => by
    have ih := set_getD_self l n d (by simpa using h)
    simp only [List.getD_cons_succ, List.set_cons_succ]
    rw [ih]

/-! ### C1 -/

/-- C1: pushing a well-shaped, representable element into a buffer whose
cursor is in range writes the element into the slot at the cursor's axis-0
index, leaves every other slot unchanged, leaves the capacity, the shape
and the number of slots unchanged, and sets the cursor to
`(cursor + 1) % capacity`. -/
theorem push_writes_cursor_slot (rb : RingBuffer) (element : List Int)
    (hix : rb.ix < rb.capacity)
    (hlen : rb.buffer.length = rb.capacity)
    (hshape : element.length = rb.slotSize)
    (hrep : element.all int64OK = true) :
    (rb.push element).1 = Except.ok ()
    ∧ ((rb.push element).2).buffer.getD rb.ix [] = element
    ∧ (∀ j : Nat, j ≠ rb.ix →
       ((rb.push element).2).buffer.getD j [] = rb.buffer.getD j [])
    ∧ ((rb.push element).2).capacity = rb.capacity
    ∧ ((rb.push element).2).shape = rb.shape
    ∧ ((rb.push element).2).buffer.length = rb.buffer.length
    ∧ ((rb.push element).2).ix = (rb.ix + 1) % rb.capacity := by
  have hnot : ¬ rb.capacity ≤ rb.ix := Nat.not_le.mpr hix
  have hne : ¬ element.length ≠ rb.slotSize := by simp [hshape]
  have hpush : rb.push element
      = (Except.ok (),
         { rb with
           buffer := rb.buffer.set rb.ix element
           , ix := (rb.ix + 1) % rb.capacity }) := by
    simp only [RingBuffer.push, if_neg hnot, if_neg hne, hrep, if_pos]
  rw [hpush]
  refine ⟨rfl, ?_, ?_, rfl, rfl, by simp, rfl⟩
  · exact getD_set_self rb.buffer rb.ix element [] (hlen ▸ hix)
  · intro j hj
    exact getD_set_ne rb.buffer rb.ix j element [] (fun h => hj h.symm)

/-- Witness for C1 at a concrete two-slot buffer. -/
theorem push_writes_cursor_slot_witness :
    ((⟨[2], [[7], [8]], 2, 0⟩ : RingBuffer).push [9]).1 = Except.ok ()
    ∧ (((⟨[2], [[7], [8]], 2, 0⟩ : RingBuffer).push [9]).2).buffer.getD 0 []
        = [9]
    ∧ (((⟨[2], [[7], [8]], 2, 0⟩ : RingBuffer).push [9]).2).buffer.getD 1 []
        = (⟨[2], [[7], [8]], 2, 0⟩ : RingBuffer).buffer.getD 1 []
    ∧ (((⟨[2], [[7], [8]], 2, 0⟩ : RingBuffer).push [9]).2).ix = (0 + 1) % 2 := by
  have h := push_writes_cursor_slot ⟨[2], [[7], [8]], 2, 0⟩ [9]
    (by decide) (by decide) (by decide) (by decide)
  exact ⟨h.1, h.2.1, h.2.2.1 1 (by decide), h.2.2.2.2.2.2⟩

/-! ### C5 -/

/-- C5: every operation is atomic with respect to errors.  A `push` whose
element is rejected (bad index, wrong shape, or a value not representable
in the element type) raises before mutating, leaving the storage and the
cursor exactly as they were; the same holds for a failing `fill`, and a
reduction call never mutates the state at all. -/
theorem ops_atomic_on_error (rb : RingBuffer) (element : List Int)
    (value : Int) (op : ReduceOp) (axis : Option Int) :
    (∀ e : RBError, (rb.push element).1 = Except.error e →
      (rb.push element).2 = rb)
    ∧ (∀ e : RBError, (rb.fill value).1 = Except.error e →
      (rb.fill value).2 = rb)
    ∧ (rb.reduce op axis).2 = rb := by
  refine ⟨?_, ?_, ?_⟩
  · intro e he
    simp only [RingBuffer.push] at he ⊢
    split_ifs at he ⊢ <;> first | rfl | simp at he
  · intro e he
    simp only [RingBuffer.fill] at he ⊢
    split_ifs at he ⊢ <;> first | rfl | simp at he
  · simp only [RingBuffer.reduce]
    split_ifs <;> rfl

/-- Witness for C5: a wrong-shape push and an unrepresentable fill on a
concrete one-slot buffer leave it untouched. -/
theorem ops_atomic_on_error_witness :
    ((⟨[1], [[0]], 1, 0⟩ : RingBuffer).push [1, 2]).1
        = Except.error RBError.shapeMismatch
    ∧ ((⟨[1], [[0]], 1, 0⟩ : RingBuffer).push [1, 2]).2 = ⟨[1], [[0]], 1, 0⟩
    ∧ ((⟨[1], [[0]], 1, 0⟩ : RingBuffer).fill (2 ^ 63)).1
        = Except.error RBError.overflowError
    ∧ ((⟨[1], [[0]], 1, 0⟩ : RingBuffer).fill (2 ^ 63)).2 = ⟨[1], [[0]], 1, 0⟩
    ∧ ((⟨[1], [[0]], 1, 0⟩ : RingBuffer).reduce ReduceOp.sum (some 1)).2
        = ⟨[1], [[0]], 1, 0⟩ := by
  have h := ops_atomic_on_error ⟨[1], [[0]], 1, 0⟩ [1, 2] (2 ^ 63)
    ReduceOp.sum (some 1)
  exact ⟨by decide, h.1 RBError.shapeMismatch (by decide), by decide,
    h.2.1 RBError.overflowError (by decide), h.2.2⟩

/-! ### C7 -/

/-- C7: filling with a representable value succeeds, sets every entry of
every slot to that value, and leaves the cursor, the capacity, the shape
metadata and the storage dimensions unchanged. -/
theorem fill_overwrites_all (rb : RingBuffer) (value : Int)
    (h : int64OK value = true) :
    (rb.fill value).1 = Except.ok ()
    ∧ ((rb.fill value).2).buffer
        = rb.buffer.map (fun row => List.replicate row.length value)
    ∧ (∀ row ∈ ((rb.fill value).2).buffer, ∀ x ∈ row, x = value)
    ∧ ((rb.fill value).2).ix = rb.ix
    ∧ ((rb.fill value).2).capacity = rb.capacity
    ∧ ((rb.fill value).2).shape = rb.shape
    ∧ ((rb.fill value).2).buffer.map List.length
        = rb.buffer.map List.length := by
  have hfill : rb.fill value
      = (Except.ok (),
         { rb with
           buffer := rb.buffer.map (fun row => List.replicate row.length value) }) := by
    simp only [RingBuffer.fill, h, if_pos]
  rw [hfill]
  refine ⟨rfl, rfl, ?_, rfl, rfl, rfl, ?_⟩
  · intro row hrow x hx
    rcases List.mem_map.mp hrow with ⟨r, _, rfl⟩
    exact List.eq_of_mem_replicate hx
  · simp [List.map_map, Function.comp]

/-- Witness for C7 on a concrete 2×2 buffer with cursor 1. -/
theorem fill_overwrites_all_witness :
    int64OK 9 = true
    ∧ ((⟨[2, 2], [[1, 2], [3, 4]], 2, 1⟩ : RingBuffer).fill 9).1 = Except.ok ()
    ∧ ((⟨[2, 2], [[1, 2], [3, 4]], 2, 1⟩ : RingBuffer).fill 9).2.buffer
        = ([[1, 2], [3, 4]] : List (List Int)).map
            (fun row => List.replicate row.length 9)
    ∧ ((⟨[2, 2], [[1, 2], [3, 4]], 2, 1⟩ : RingBuffer).fill 9).2.ix = 1 := by
  have h := fill_overwrites_all ⟨[2, 2], [[1, 2], [3, 4]], 2, 1⟩ 9 (by decide)
  exact ⟨by decide, h.1, h.2.1, h.2.2.2.1⟩

/-! ### C6 -/

/-- A push, raising or not, never changes the capacity. -/
theorem push_capacity_eq (rb : RingBuffer) (e : List Int) :
    ((rb.push e).2).capacity = rb.capacity := by
  simp only [RingBuffer.push]
  split_ifs <;> rfl

/-- A fill, raising or not, never changes the capacity. -/
theorem fill_capacity_eq (rb : RingBuffer) (v : Int) :
    ((rb.fill v).2).capacity = rb.capacity := by
  simp only [RingBuffer.fill]
  split_ifs <;> rfl

/-- No finite sequence of pushes and fills changes the capacity. -/
theorem runOps_capacity (ops : List RBOp) :
    ∀ rb : RingBuffer, (runOps rb ops).capacity = rb.capacity := by
  induction ops with
  | nil => intro rb; rfl
  | cons op rest ih =>
    intro rb
    have hstep : (applyOp rb op).capacity = rb.capacity := by
      cases op with
      | push e => exact push_capacity_eq rb e
      | fill v => exact fill_capacity_eq rb v
    calc (runOps rb (op :: rest)).capacity
        = (runOps (applyOp rb op) rest).capacity := rfl
      _ = (applyOp rb op).capacity := ih (applyOp rb op)
      _ = rb.capacity := hstep

/-- C6: for every successful construction, `__len__` returns the first
shape dimension, and it returns the same value after any finite sequence
of pushes and fills. -/
theorem length_invariant (shape : List Int) (fv : Int) (rb : RingBuffer)
    (h : RingBuffer.init shape fv = Except.ok rb) :
    rb.length = (shape.headD 0).toNat
    ∧ ∀ ops : List RBOp, (runOps rb ops).length = rb.length := by
  constructor
  · unfold RingBuffer.init at h
    by_cases h1 : shape.any (fun d => d < 0)
    · rw [if_pos h1] at h
      exact absurd h (by simp)
    · rw [if_neg h1] at h
      by_cases h2 : int64OK fv = true
      · rw [if_pos h2] at h
        cases shape with
        | nil => exact absurd h (by simp)
        | cons d rest =>
          have hrb := Except.ok.inj h
          rw [← hrb]
          rfl
      · rw [if_neg h2] at h
        exact absurd h (by simp)
  · intro ops
    exact runOps_capacity ops rb

/-- Witness for C6: a concrete construction of capacity 3 followed by a
concrete sequence of pushes and fills. -/
theorem length_invariant_witness :
    RingBuffer.init [3] 7 = Except.ok ⟨[3], [[7], [7], [7]], 3, 0⟩
    ∧ (⟨[3], [[7], [7], [7]], 3, 0⟩ : RingBuffer).length
        = (([3] : List Int).headD 0).toNat
    ∧ (runOps ⟨[3], [[7], [7], [7]], 3, 0⟩
        [RBOp.push [5], RBOp.fill 1, RBOp.push [2]]).length
        = (⟨[3], [[7], [7], [7]], 3, 0⟩ : RingBuffer).length := by
  have h := length_invariant [3] 7 ⟨[3], [[7], [7], [7]], 3, 0⟩ (by decide)
  exact ⟨by decide, h.1, h.2 [RBOp.push [5], RBOp.fill 1, RBOp.push [2]]⟩

/-! ### C2 -/

/-- A scalar reduction never raises the non-primary-axis error: its only
possible failure is the zero-size one. -/
theorem scalarReduce_ne_invalidAxis (op : ReduceOp) (xs : List Int) :
    scalarReduce op xs ≠ Except.error RBError.invalidAxis := by
  cases op <;> cases xs <;> simp [scalarReduce]

/-- Mapping a function over an `Except` cannot introduce a new error value. -/
theorem except_map_ne_error {ε α β : Type} (f : α → β) (e : Except ε α)
    (err : ε) (h : e ≠ Except.error err) : e.map f ≠ Except.error err := by
  cases e with
  | error a => simpa [Except.map] using h
  | ok a => simp [Except.map]

/-- Sequencing reductions that never raise a given error cannot raise it. -/
theorem mapExcept_ne_error {α β ε : Type} (f : α → Except ε β) (err : ε)
    (hf : ∀ a : α, f a ≠ Except.error err) :
    ∀ l : List α, mapExcept f l ≠ Except.error err := by
  intro l
  induction l with
  | nil => simp [mapExcept]
  | cons a l ih =>
    simp only [mapExcept]
    cases hfa : f a with
    | error e =>
      intro hcontra
      exact hf a (by rw [hfa, Except.error.inj hcontra])
    | ok b =>
      cases hml : mapExcept f l with
      | error e =>
        intro hcontra
        exact ih (by rw [hml, Except.error.inj hcontra])
      | ok bs => simp

/-- C2: every generated reduction method raises the
`cannot perform reduction along non-primary axis` error exactly when the
axis argument is neither `None` nor `0`; with `axis=None` or `axis=0` that
error is never raised.  On a buffer of shape `(5, 2)`, `sum(axis=1)` raises
it, `sum(axis=0)` returns the length-2 array of per-column sums, and
`sum(axis=None)` returns the scalar sum of all entries. -/
theorem reduce_axis_guard :
    (∀ (rb : RingBuffer) (op : ReduceOp) (axis : Option Int),
      axis ≠ none → axis ≠ some 0 →
      (rb.reduce op axis).1 = Except.error RBError.invalidAxis)
    ∧ (∀ (rb : RingBuffer) (op : ReduceOp),
      (rb.reduce op none).1 ≠ Except.error RBError.invalidAxis
      ∧ (rb.reduce op (some 0)).1 ≠ Except.error RBError.invalidAxis)
    ∧ (∀ rb : RingBuffer, rb.shape = [5, 2] →
      (rb.reduce ReduceOp.sum (some 1)).1 = Except.error RBError.invalidAxis
      ∧ (rb.reduce ReduceOp.sum (some 0)).1
          = Except.ok (NpResult.array
              [NpScalar.i (int64Wrap (rb.column 0).sum),
               NpScalar.i (int64Wrap (rb.column 1).sum)])
      ∧ (rb.reduce ReduceOp.sum none).1
          = Except.ok (NpResult.scalar (NpScalar.i (int64Wrap rb.buffer.flatten.sum)))) := by
  have guard : ∀ (rb : RingBuffer) (op : ReduceOp) (axis : Option Int),
      axis ≠ none → axis ≠ some 0 →
      (rb.reduce op axis).1 = Except.error RBError.invalidAxis := by
    intro rb op axis h1 h2
    rw [RingBuffer.reduce.eq_def, if_neg (by rintro (h | h) <;> contradiction)]
  refine ⟨guard, ?_, ?_⟩
  · intro rb op
    constructor
    · rw [RingBuffer.reduce.eq_def, if_pos (Or.inl rfl)]
      exact except_map_ne_error _ _ _ (scalarReduce_ne_invalidAxis op _)
    · rw [RingBuffer.reduce.eq_def, if_pos (Or.inr rfl)]
      cases htail : rb.shape.tail with
      | nil =>
        simp only [htail]
        exact except_map_ne_error _ _ _ (scalarReduce_ne_invalidAxis op _)
      | cons d rest =>
        simp only [htail]
        exact except_map_ne_error _ _ _
          (mapExcept_ne_error _ _ (fun j => scalarReduce_ne_invalidAxis op _) _)
  · intro rb hshape
    refine ⟨guard rb ReduceOp.sum (some 1) (by simp) (by simp), ?_, ?_⟩
    · have hr : List.range (2 : Nat) = [0, 1] := by decide
      rw [RingBuffer.reduce.eq_def, if_pos (Or.inr rfl)]
      simp only [hshape, RingBuffer.slotSize, List.tail_cons, List.prod_cons,
        List.prod_nil, hr]
      simp [mapExcept, scalarReduce, Except.map]
    · rw [RingBuffer.reduce.eq_def, if_pos (Or.inl rfl)]
      simp [scalarReduce, Except.map]

/-- Witness for C2 on a concrete `(5, 2)` buffer and a rejected axis. -/
theorem reduce_axis_guard_witness :
    ((⟨[5, 2], [[0, 1], [10, 11], [20, 21], [30, 31], [40, 41]], 5, 0⟩ :
        RingBuffer).reduce ReduceOp.mean (some 2)).1
      = Except.error RBError.invalidAxis
    ∧ ((⟨[5, 2], [[0, 1], [10, 11], [20, 21], [30, 31], [40, 41]], 5, 0⟩ :
        RingBuffer).reduce ReduceOp.sum (some 1)).1
      = Except.error RBError.invalidAxis
    ∧ ((⟨[5, 2], [[0, 1], [10, 11], [20, 21], [30, 31], [40, 41]], 5, 0⟩ :
        RingBuffer).reduce ReduceOp.sum none).1
      ≠ Except.error RBError.invalidAxis := by
  have h := reduce_axis_guard
  exact ⟨h.1 _ ReduceOp.mean (some 2) (by decide) (by decide),
    (h.2.2 _ rfl).1,
    (h.2.1 ⟨[5, 2], [[0, 1], [10, 11], [20, 21], [30, 31], [40, 41]], 5, 0⟩
      ReduceOp.sum).1⟩

/-! ### C9 -/

/-- Flattening a list of length-1 rows gives the list of their single
entries — for a one-dimensional buffer, the whole storage coincides with
its only axis-0 column. -/
theorem flatten_eq_column0 :
    ∀ buf : List (List Int), (∀ row ∈ buf, row.length = 1) →
      buf.flatten = buf.map (fun row => row.getD 0 0)
  | [], _ => rfl
  | row :: rest, h => by
    have h1 : row.length = 1 := h row (by simp)
    have ih := flatten_eq_column0 rest (fun r hr => h r (by simp [hr]))
    match row, h1 with
    | [x], _ => simp [ih]

/-- C9: on a one-dimensional buffer every reduction gives the same result
for `axis=0` as for `axis=None` — the rotation axis is the whole buffer. -/
theorem one_dim_axis0_eq_none (rb : RingBuffer)
    (hshape : rb.shape.tail = [])
    (hrows : ∀ row ∈ rb.buffer, row.length = 1) :
    ∀ op : ReduceOp, (rb.reduce op (some 0)).1 = (rb.reduce op none).1 := by
  intro op
  rw [RingBuffer.reduce.eq_def, RingBuffer.reduce.eq_def,
    if_pos (Or.inr rfl), if_pos (Or.inl rfl)]
  simp only [hshape]
  have hcol : rb.column 0 = rb.buffer.flatten := by
    rw [RingBuffer.column, flatten_eq_column0 rb.buffer hrows]
  rw [hcol]

/-- Witness for C9 on a concrete one-dimensional buffer. -/
theorem one_dim_axis0_eq_none_witness :
    ((⟨[3], [[4], [5], [6]], 3, 1⟩ : RingBuffer).reduce ReduceOp.sum (some 0)).1
      = ((⟨[3], [[4], [5], [6]], 3, 1⟩ : RingBuffer).reduce ReduceOp.sum none).1 := by
  exact one_dim_axis0_eq_none ⟨[3], [[4], [5], [6]], 3, 1⟩ (by decide)
    (by decide) ReduceOp.sum

/-! ### C8 (corrected) -/

/-- C8 counterexample: the claim says a requested shape with a zero
dimension is rejected with an InvalidShape error and no buffer is produced,
but `np.full` accepts zero-size dimensions: constructing with shape `(0,)`
succeeds and yields a buffer of capacity 0. -/
theorem init_zero_dim_ok :
    RingBuffer.init [0] 0 = Except.ok ⟨[0], [], 0, 0⟩ := by decide

/-- C8 amended: construction fails with the invalid-shape error exactly for
a negative dimension; a shape of nonnegative dimensions (zero allowed) with
a representable fill value constructs a buffer whose every slot is the fill
value, with capacity the leading dimension and cursor 0. -/
theorem init_negative_dim_error :
    (∀ (shape : List Int) (fv : Int),
      shape.any (fun d => d < 0) = true →
      RingBuffer.init shape fv = Except.error RBError.negativeDimensions)
    ∧ (∀ (d : Int) (rest : List Int) (fv : Int),
      (d :: rest).any (fun x => x < 0) = false →
      int64OK fv = true →
      RingBuffer.init (d :: rest) fv
        = Except.ok ⟨(d :: rest).map Int.toNat,
            List.replicate d.toNat
              (List.replicate ((rest.map Int.toNat).prod) fv),
            d.toNat, 0⟩) := by
  constructor
  · intro shape fv h
    rw [RingBuffer.init.eq_def, if_pos h]
  · intro d rest fv h1 h2
    rw [RingBuffer.init.eq_def, if_neg (by simp [h1]), if_pos h2]

/-- Witness for C8's amended statement: a negative dimension is rejected
while a zero dimension is accepted. -/
theorem init_negative_dim_error_witness :
    ([-1, 2] : List Int).any (fun d => d < 0) = true
    ∧ RingBuffer.init [-1, 2] 0 = Except.error RBError.negativeDimensions
    ∧ RingBuffer.init [0, 2] 0
        = Except.ok ⟨([0, 2] : List Int).map Int.toNat,
            List.replicate (0 : Int).toNat
              (List.replicate ((([2] : List Int).map Int.toNat).prod) 0),
            (0 : Int).toNat, 0⟩ := by
  have h := init_negative_dim_error
  exact ⟨by decide, h.1 [-1, 2] 0 (by decide), h.2 0 [2] 0 (by decide) (by decide)⟩

/-! ### C10 (corrected) -/

/-- C10 counterexample: the claim says accessing any attribute of an
`ExplodingObject` raises, but `__getattr__` is only invoked when normal
lookup fails; the instance attribute `_name` set by `__init__` is found by
normal lookup and returned without an error. -/
theorem exploding_name_attr_ok :
    ExplodingObject.getattr ⟨"portfolio"⟩ "_name" = Except.ok "portfolio" := by
  decide

/-- C10 amended: accessing any attribute other than the stored `_name`
(and the attributes Python objects inherit, not modelled) raises an
`AttributeError` whose message contains the accessed attribute name and
the object's name. -/
theorem exploding_getattr_error (obj : ExplodingObject) (attr : String)
    (h : attr ≠ "_name") :
    obj.getattr attr
      = Except.error
          ("attempted to access attribute " ++ attr
            ++ " of ExplodingObject " ++ obj._name) := by
  rw [ExplodingObject.getattr, if_neg h]

/-- Witness for C10's amended statement at a concrete attribute. -/
theorem exploding_getattr_error_witness :
    ("current_portfolio" : String) ≠ "_name"
    ∧ ExplodingObject.getattr ⟨"portfolio"⟩ "current_portfolio"
        = Except.error
            ("attempted to access attribute " ++ "current_portfolio"
              ++ " of ExplodingObject " ++ "portfolio") := by
  exact ⟨by decide,
    exploding_getattr_error ⟨"portfolio"⟩ "current_portfolio" (by decide)⟩

/-! ### C3 -/

/-- Splitting a push sequence at an append boundary. -/
theorem pushSeq_append (l1 l2 : List (List Int)) :
    ∀ rb : RingBuffer,
      pushSeq rb (l1 ++ l2)
        = match pushSeq rb l1 with
          | Except.ok rb' => pushSeq rb' l2
          | Except.error e => Except.error e := by
  induction l1 with
  | nil => intro rb; rfl
  | cons e es ih =>
    intro rb
    simp only [List.cons_append, pushSeq]
    cases rb.push e with
    | mk outcome rb' =>
      cases outcome with
      | ok u => exact ih rb'
      | error err => rfl

/-- Unfolding one step of the cyclic push list. -/
theorem cycleElems_succ (vs : List (List Int)) (k : Nat) :
    cycleElems vs (k + 1)
      = cycleElems vs k ++ [vs.getD (k % vs.length) []] := by
  simp [cycleElems, List.range_succ]

/-- Pushing the buffer's own values cyclically never changes the storage:
after `k` such pushes from a state whose storage already holds those values
with the cursor at 0, the storage is unchanged and the cursor is
`k % capacity`. -/
theorem pushSeq_cycle (shape : List Nat) (vs : List (List Int))
    (h1 : 1 ≤ vs.length)
    (h2 : ∀ e ∈ vs, e.length = shape.tail.prod ∧ e.all int64OK = true) :
    ∀ k : Nat,
      pushSeq ⟨shape, vs, vs.length, 0⟩ (cycleElems vs k)
        = Except.ok ⟨shape, vs, vs.length, k % vs.length⟩ := by
  intro k
  induction k with
  | zero => simp [cycleElems, pushSeq]
  | succ k ih =>
    rw [cycleElems_succ, pushSeq_append, ih]
    have hlt : k % vs.length < vs.length := Nat.mod_lt _ h1
    have hmem : vs.getD (k % vs.length) [] ∈ vs := by
      rw [List.getD_eq_getElem?_getD, List.getElem?_eq_getElem hlt]
      exact List.getElem_mem hlt
    obtain ⟨hlen_e, hok_e⟩ := h2 _ hmem
    have hpush : RingBuffer.push ⟨shape, vs, vs.length, k % vs.length⟩
        (vs.getD (k % vs.length) [])
        = (Except.ok (),
           ⟨shape, vs, vs.length, (k + 1) % vs.length⟩) := by
      have hne : ¬ (vs.getD (k % vs.length) []).length
          ≠ (⟨shape, vs, vs.length, k % vs.length⟩ : RingBuffer).slotSize :=
        fun hc => hc hlen_e
      simp only [RingBuffer.push, if_neg (Nat.not_le.mpr hlt), if_neg hne,
        hok_e, if_pos]
      rw [Prod.mk.injEq]
      refine ⟨rfl, ?_⟩
      rw [RingBuffer.mk.injEq]
      refine ⟨rfl, set_getD_self vs _ [] hlt, rfl, Nat.mod_add_mod k vs.length 1⟩
    show pushSeq ⟨shape, vs, vs.length, k % vs.length⟩
        [vs.getD (k % vs.length) []] = _
    simp only [pushSeq, hpush]

/-- C3: starting from a full buffer of capacity `c ≥ 1` holding the slot
values `vs` with cursor 0, performing `k ≥ c` further pushes of the same
values in the same cyclic order succeeds and leaves the storage — and with
it the result of every whole-buffer reduction — unchanged; only the cursor
moves.  More generally, reduction results never depend on the cursor or
capacity fields, only on the storage and shape. -/
theorem reduce_invariant_under_rotation (shape : List Nat)
    (vs : List (List Int)) (k : Nat)
    (h1 : 1 ≤ vs.length)
    (h2 : ∀ e ∈ vs, e.length = shape.tail.prod ∧ e.all int64OK = true)
    (h3 : vs.length ≤ k) :
    pushSeq ⟨shape, vs, vs.length, 0⟩ (cycleElems vs k)
      = Except.ok ⟨shape, vs, vs.length, k % vs.length⟩
    ∧ (∀ op : ReduceOp,
      ((⟨shape, vs, vs.length, k % vs.length⟩ : RingBuffer).reduce op none).1
        = ((⟨shape, vs, vs.length, 0⟩ : RingBuffer).reduce op none).1)
    ∧ (∀ rb1 rb2 : RingBuffer, rb1.buffer = rb2.buffer →
      rb1.shape = rb2.shape → ∀ (op : ReduceOp) (axis : Option Int),
        (rb1.reduce op axis).1 = (rb2.reduce op axis).1) := by
  refine ⟨pushSeq_cycle shape vs h1 h2 k, fun op => rfl, ?_⟩
  rintro ⟨s1, b1, c1, i1⟩ ⟨s2, b2, c2, i2⟩ hb hs op axis
  dsimp only at hb hs
  subst hb
  subst hs
  rw [RingBuffer.reduce.eq_def, RingBuffer.reduce.eq_def]
  by_cases hax : axis = none ∨ axis = some 0
  · rw [if_pos hax, if_pos hax]
    rcases hax with h | h
    · subst h; rfl
    · subst h
      rcases s1 with _ | ⟨a, rest⟩
      · rfl
      · rcases rest with _ | ⟨b, rest2⟩ <;> rfl
  · rw [if_neg hax, if_neg hax]

/-- Witness for C3: capacity 2, values `[[1], [2]]`, three further cyclic
pushes. -/
theorem reduce_invariant_under_rotation_witness :
    1 ≤ ([[1], [2]] : List (List Int)).length
    ∧ pushSeq ⟨[2], [[1], [2]], 2, 0⟩ (cycleElems [[1], [2]] 3)
        = Except.ok ⟨[2], [[1], [2]], 2, 3 % 2⟩
    ∧ ((⟨[2], [[1], [2]], 2, 3 % 2⟩ : RingBuffer).reduce ReduceOp.sum none).1
        = ((⟨[2], [[1], [2]], 2, 0⟩ : RingBuffer).reduce ReduceOp.sum none).1 := by
  have h := reduce_invariant_under_rotation [2] [[1], [2]] 3 (by decide)
    (by decide) (by decide)
  exact ⟨by decide, h.1, h.2.1 ReduceOp.sum⟩

/-! ### C4 -/

/-- C4: the docstring scenario.  A capacity-5 integer buffer filled with 0:
pushing 0..4 gives `sum() = 10` and `mean() = 2.0`; one further push of 5
(overwriting the slot holding 0) gives `sum() = 15` and `mean() = 3.0`.  A
`(5, 2)` buffer filled with 0: pushing `[10n, 10n+1]` for `n = 0..4` gives
whole-buffer `sum() = 205` and `sum(axis=0) = [100, 105]`. -/
theorem concrete_scenario :
    RingBuffer.init [5] 0 = Except.ok ⟨[5], List.replicate 5 [0], 5, 0⟩
    ∧ pushSeq ⟨[5], List.replicate 5 [0], 5, 0⟩ [[0], [1], [2], [3], [4]]
        = Except.ok ⟨[5], [[0], [1], [2], [3], [4]], 5, 0⟩
    ∧ ((⟨[5], [[0], [1], [2], [3], [4]], 5, 0⟩ : RingBuffer).reduce
        ReduceOp.sum none).1 = Except.ok (NpResult.scalar (NpScalar.i 10))
    ∧ ((⟨[5], [[0], [1], [2], [3], [4]], 5, 0⟩ : RingBuffer).reduce
        ReduceOp.mean none).1 = Except.ok (NpResult.scalar (NpScalar.q 2))
    ∧ (⟨[5], [[0], [1], [2], [3], [4]], 5, 0⟩ : RingBuffer).push [5]
        = (Except.ok (), ⟨[5], [[5], [1], [2], [3], [4]], 5, 1⟩)
    ∧ ((⟨[5], [[5], [1], [2], [3], [4]], 5, 1⟩ : RingBuffer).reduce
        ReduceOp.sum none).1 = Except.ok (NpResult.scalar (NpScalar.i 15))
    ∧ ((⟨[5], [[5], [1], [2], [3], [4]], 5, 1⟩ : RingBuffer).reduce
        ReduceOp.mean none).1 = Except.ok (NpResult.scalar (NpScalar.q 3))
    ∧ RingBuffer.init [5, 2] 0 = Except.ok ⟨[5, 2], List.replicate 5 [0, 0], 5, 0⟩
    ∧ pushSeq ⟨[5, 2], List.replicate 5 [0, 0], 5, 0⟩
        [[0, 1], [10, 11], [20, 21], [30, 31], [40, 41]]
        = Except.ok ⟨[5, 2], [[0, 1], [10, 11], [20, 21], [30, 31], [40, 41]], 5, 0⟩
    ∧ ((⟨[5, 2], [[0, 1], [10, 11], [20, 21], [30, 31], [40, 41]], 5, 0⟩ :
        RingBuffer).reduce ReduceOp.sum none).1
        = Except.ok (NpResult.scalar (NpScalar.i 205))
    ∧ ((⟨[5, 2], [[0, 1], [10, 11], [20, 21], [30, 31], [40, 41]], 5, 0⟩ :
        RingBuffer).reduce ReduceOp.sum (some 0)).1
        = Except.ok (NpResult.array [NpScalar.i 100, NpScalar.i 105]) := by
  refine ⟨by decide, by decide, by decide, ?_, by decide, by decide, ?_,
    by decide, by decide, by decide, by decide⟩
  · rw [RingBuffer.reduce.eq_def, if_pos (Or.inl rfl)]
    simp only [scalarReduce, Except.map]
    norm_num [listMeanQ, List.flatten]
  · rw [RingBuffer.reduce.eq_def, if_pos (Or.inl rfl)]
    simp only [scalarReduce, Except.map]
    norm_num [listMeanQ, List.flatten]
